import Mathlib

/-!
Verification of the repository Norms-Master, a one-shot SQLite-to-JSON
export script (src/export_to_json.py).  The script connects to the file
norms_decoded.db, reads all rows of five fixed tables, and writes the
accumulated document to norms_data.json via json.dump with indent 2 and
a default-to-str fallback for values (such as bytes) that are not
natively JSON-representable.

The embedding models the Python-level values the script manipulates, the
filesystem state the script touches (the database file and the output
file), sqlite3.connect (which creates an empty database file when the
path is absent), the per-table SELECT loop, Python str() applied to a
bytes object (its repr), and the exact text produced by json.dump.
-/

namespace ExportToJson

/-- A scalar value as delivered by the sqlite3 driver to Python, for
the column types this development models: None (a NULL), int (an
INTEGER), str (a TEXT) and bytes (a BLOB, each byte 0..255).  The
driver also delivers a Python float for a REAL column; json.dump
renders a finite float through float.__repr__ — the shortest
correctly-rounded decimal that reads back to the same IEEE-754
binary64 under round-to-nearest-even — and renders infinities and NaN
as the bare tokens Infinity and NaN.  That conversion is IEEE-754
floating-point behaviour; this development works over Nat, Int and
String and deliberately leaves REAL values outside the modelled value
domain rather than stub their rendering, so every statement below is
about rows whose columns are NULL, INTEGER, TEXT or BLOB. -/
inductive PyVal where
  | none
  | int (n : Int)
  | str (s : String)
  | bytes (bs : List Nat)
  deriving DecidableEq, Repr

/-- A table as stored in the database: its column names (schema order)
and its rows, each row the list of column values in schema order. -/
structure Table where
  cols : List String
  rows : List (List PyVal)
  deriving DecidableEq, Repr

/-- The content of the file norms_decoded.db: either a valid SQLite
database (a list of named tables) or a file that is not a database. -/
inductive DbFile where
  | validDb (tabs : List (String × Table))
  | notADatabase
  deriving DecidableEq, Repr

/-- The filesystem state the script touches: dbFile is the content of
norms_decoded.db (Option.none when the file is absent) and outFile is
the content of norms_data.json (Option.none when the file is absent). -/
structure Sys where
  dbFile : Option DbFile
  outFile : Option String
  deriving DecidableEq, Repr

/-- The errors the sqlite3 driver can raise during cursor.execute:
sqlite3.OperationalError for a missing table, and
sqlite3.DatabaseError when the file is not a database. -/
inductive SqlError where
  | noSuchTable (t : String)
  | notADatabase
  deriving DecidableEq, Repr

/-- The fixed table list of the script (line 9 of export_to_json.py). -/
def tables : List String :=
  ["norms", "norm_resources", "rates", "projects", "boq_items"]

/-- sqlite3.connect on norms_decoded.db: when the file is absent it is
created as a new empty database; connect itself never fails for an
absent or invalid file (the error surfaces at the first query). Returns
the database content the connection sees and the new filesystem state. -/
def connect (s : Sys) : DbFile × Sys :=
  match s.dbFile with
  | Option.none => (DbFile.validDb [], { s with dbFile := some (DbFile.validDb []) })
  | some f => (f, s)

/-- cursor.execute of the f-string query on line 13. -/
def sqlFor (t : String) : String := "SELECT * FROM " ++ t

/-- cursor.execute followed by cursor.fetchall for one table: errors if
the file is not a database or the table does not exist, otherwise
returns the table (its columns and all rows, in stored order). -/
def selectAll (f : DbFile) (t : String) : Except SqlError Table :=
  match f with
  | DbFile.notADatabase => Except.error SqlError.notADatabase
  | DbFile.validDb tabs =>
    match tabs.lookup t with
    | Option.none => Except.error (SqlError.noSuchTable t)
    | some tab => Except.ok tab

/-- dict(row) for a sqlite3.Row: column names zipped with the values. -/
def dictOfRow (cols : List String) (vals : List PyVal) : List (String × PyVal) :=
  cols.zip vals

/-- One table entry of the export document, as built on line 15:
data[table] = [dict(row) for row in rows]. -/
def tableEntry (tab : Table) : List (List (String × PyVal)) :=
  tab.rows.map (dictOfRow tab.cols)

/-- The for-loop of lines 12-16: queries each table in list order,
stopping at the first error.  Returns the list of SQL queries actually
executed (in execution order) and either the first error or the
accumulated export document (an insertion-ordered dict, as Python
dicts preserve insertion order). -/
def loopTables (f : DbFile) :
    List String → List String × Except SqlError (List (String × List (List (String × PyVal))))
  | [] => ([], Except.ok [])
  | t :: ts =>
    match selectAll f t with
    | Except.error e => ([sqlFor t], Except.error e)
    | Except.ok tab =>
      let rest := loopTables f ts
      (sqlFor t :: rest.1, rest.2.map (fun doc => (t, tableEntry tab) :: doc))

/-- The export document the run would produce from database content f. -/
def exportDoc (f : DbFile) :
    Except SqlError (List (String × List (List (String × PyVal)))) :=
  (loopTables f tables).2

/-- The queries the run executes against database content f, in order. -/
def executedQueries (f : DbFile) : List String :=
  (loopTables f tables).1

/-! ### Python str() of a bytes object (its repr), the default=str fallback -/

/-- Lowercase hexadecimal digit. -/
def hexDigit (n : Nat) : Char :=
  if n < 10 then Char.ofNat (48 + n) else Char.ofNat (87 + n)

/-- The quote character CPython picks for the repr of a bytes object:
a single quote, unless the bytes contain a single quote (39) and no
double quote (34), in which case a double quote. -/
def bytesQuote (bs : List Nat) : Nat :=
  if bs.contains 39 ∧ ¬ bs.contains 34 then 34 else 39

/-- How CPython renders one byte inside the repr of a bytes object with
quote character q: backslash-escape the quote and the backslash, use
\t \n \r for 9 10 13, \xhh for other bytes outside 0x20..0x7e, and the
literal character otherwise. -/
def escByte (q : Nat) (b : Nat) : List Char :=
  if b = q ∨ b = 92 then [Char.ofNat 92, Char.ofNat b]
  else if b = 9 then [Char.ofNat 92, Char.ofNat 116]
  else if b = 10 then [Char.ofNat 92, Char.ofNat 110]
  else if b = 13 then [Char.ofNat 92, Char.ofNat 114]
  else if b < 32 ∨ 127 ≤ b then [Char.ofNat 92, Char.ofNat 120, hexDigit (b / 16 % 16), hexDigit (b % 16)]
  else [Char.ofNat b]

/-- Python str() applied to a bytes object: its repr, the text
b, quote, escaped bytes, quote. -/
def bytesRepr (bs : List Nat) : String :=
  let q := bytesQuote bs
  String.mk (Char.ofNat 98 :: Char.ofNat q :: (bs.flatMap (escByte q) ++ [Char.ofNat q]))

/-- The character content of a bytes object decoded byte-for-byte
(what the blob would look like read as Latin-1 text), for contrast
with its repr. -/
def decodedBytes (bs : List Nat) : String :=
  String.mk (bs.map Char.ofNat)

/-! ### json.dump with indent=2, ensure_ascii (the default) and default=str -/

/-- How json.dump escapes one character of a string with the default
ensure_ascii=True: quote and backslash become two-character escapes,
the named control escapes \b \t \n \f \r apply, every other character
in 0x20..0x7e is emitted literally, and everything else becomes a
\uxxxx escape (a surrogate pair above 0xffff). -/
def escapeChar (c : Char) : List Char :=
  if c = Char.ofNat 34 then [Char.ofNat 92, Char.ofNat 34]
  else if c = Char.ofNat 92 then [Char.ofNat 92, Char.ofNat 92]
  else if c = Char.ofNat 8 then [Char.ofNat 92, Char.ofNat 98]
  else if c = Char.ofNat 9 then [Char.ofNat 92, Char.ofNat 116]
  else if c = Char.ofNat 10 then [Char.ofNat 92, Char.ofNat 110]
  else if c = Char.ofNat 12 then [Char.ofNat 92, Char.ofNat 102]
  else if c = Char.ofNat 13 then [Char.ofNat 92, Char.ofNat 114]
  else if 32 ≤ c.toNat ∧ c.toNat ≤ 126 then [c]
  else if c.toNat < 65536 then
    [Char.ofNat 92, Char.ofNat 117,
     hexDigit (c.toNat / 4096 % 16), hexDigit (c.toNat / 256 % 16),
     hexDigit (c.toNat / 16 % 16), hexDigit (c.toNat % 16)]
  else
    let v := c.toNat - 65536
    [Char.ofNat 92, Char.ofNat 117,
     hexDigit ((55296 + v / 1024) / 4096 % 16), hexDigit ((55296 + v / 1024) / 256 % 16),
     hexDigit ((55296 + v / 1024) / 16 % 16), hexDigit ((55296 + v / 1024) % 16)] ++
    [Char.ofNat 92, Char.ofNat 117,
     hexDigit ((56320 + v % 1024) / 4096 % 16), hexDigit ((56320 + v % 1024) / 256 % 16),
     hexDigit ((56320 + v % 1024) / 16 % 16), hexDigit ((56320 + v % 1024) % 16)]

/-- A JSON string literal as json.dump emits it: quote, escaped
characters, quote. -/
def quoteJson (s : String) : String :=
  String.mk (Char.ofNat 34 :: (s.data.flatMap escapeChar ++ [Char.ofNat 34]))

/-- How json.dump renders one scalar value of a row.  None, int and str
are natively representable and rendered directly; a bytes value is not,
so default=str applies and its str() rendering is emitted as a JSON
string. -/
def renderVal : PyVal → String
  | PyVal.none => "null"
  | PyVal.int n => toString n
  | PyVal.str s => quoteJson s
  | PyVal.bytes bs => quoteJson (bytesRepr bs)

/-- indent=2: the indentation string at nesting level lv. -/
def ind (lv : Nat) : String := String.mk (List.replicate (2 * lv) (Char.ofNat 32))

/-- Newline character as a string. -/
def nl : String := String.mk [Char.ofNat 10]

/-- One key-value pair of a JSON object at nesting level lv, with the
key separator ": " that json.dump uses when indent is given. -/
def renderPair (lv : Nat) (render : α → String) (kv : String × α) : String :=
  ind lv ++ quoteJson kv.1 ++ ": " ++ render kv.2

/-- json.dump rendering of a JSON object at nesting level lv whose
values are rendered by the given function: \x7b\x7d when empty,
otherwise the pairs separated by ",&#92;n" and indented one level
deeper, between braces. -/
def renderObj (lv : Nat) (render : α → String) (kvs : List (String × α)) : String :=
  match kvs with
  | [] => String.mk [Char.ofNat 123, Char.ofNat 125]
  | _ =>
    String.mk [Char.ofNat 123] ++ nl ++
    String.intercalate ("," ++ nl) (kvs.map (renderPair (lv + 1) render)) ++
    nl ++ ind lv ++ String.mk [Char.ofNat 125]

/-- json.dump rendering of a JSON array at nesting level lv whose
elements are rendered by the given function: [] when empty, otherwise
the elements separated by ",&#92;n" and indented one level deeper,
between brackets. -/
def renderArr (lv : Nat) (render : α → String) (xs : List α) : String :=
  match xs with
  | [] => "[]"
  | _ =>
    "[" ++ nl ++
    String.intercalate ("," ++ nl) (xs.map (fun x => ind (lv + 1) ++ render x)) ++
    nl ++ ind lv ++ "]"

/-- One row object of the export document, at nesting level lv. -/
def renderRow (lv : Nat) (r : List (String × PyVal)) : String :=
  renderObj lv (fun v => renderVal v) r

/-- One table array of the export document, at nesting level lv. -/
def renderTable (lv : Nat) (rows : List (List (String × PyVal))) : String :=
  renderArr lv (renderRow lv.succ) rows

/-- The exact text json.dump(data, f, indent=2, default=str) writes for
the export document: the top-level object at nesting level 0. -/
def jsonDump (doc : List (String × List (List (String × PyVal)))) : String :=
  renderObj 0 (renderTable 1) doc

/-! ### Re-parsing: json.loads scanning of a string literal -/

/-- Value of one hexadecimal digit, as json.loads accepts it. -/
def hexVal (c : Char) : Option Nat :=
  if 48 ≤ c.toNat ∧ c.toNat ≤ 57 then some (c.toNat - 48)
  else if 97 ≤ c.toNat ∧ c.toNat ≤ 102 then some (c.toNat - 87)
  else if 65 ≤ c.toNat ∧ c.toNat ≤ 70 then some (c.toNat - 55)
  else Option.none

/-- json.loads reading of four hexadecimal digits of a \u escape: the
value and the remaining input. -/
def parseHex4 : List Char → Option (Nat × List Char)
  | h1 :: h2 :: h3 :: h4 :: rest =>
    match hexVal h1, hexVal h2, hexVal h3, hexVal h4 with
    | some a, some b, some cc, some d => some (4096 * a + 256 * b + 16 * cc + d, rest)
    | _, _, _, _ => Option.none
  | _ => Option.none

/-- parseHex4 consumes exactly four characters. -/
theorem parseHex4_length {l r : List Char} {n : Nat}
    (h : parseHex4 l = some (n, r)) : r.length + 4 = l.length := by
  match l, h with
  | h1 :: h2 :: h3 :: h4 :: rest, h =>
    rw [parseHex4] at h
    split at h
    · injection h with h
      rw [Prod.mk.injEq] at h
      rw [← h.2]
      simp
    · cases h
  | [], h => cases h
  | [x1], h => cases h
  | [x1, x2], h => cases h
  | [x1, x2, x3], h => cases h

/-- The low-surrogate continuation of a surrogate-pair escape starts
with a backslash and the letter u. -/
def expectBackslashU : List Char → Option (List Char)
  | b2 :: u2 :: rest =>
    if b2 = Char.ofNat 92 ∧ u2 = Char.ofNat 117 then some rest else Option.none
  | _ => Option.none

/-- expectBackslashU consumes exactly two characters. -/
theorem expectBackslashU_length {l r : List Char}
    (h : expectBackslashU l = some r) : r.length + 2 = l.length := by
  match l, h with
  | b2 :: u2 :: rest, h =>
    rw [expectBackslashU] at h
    split at h
    · injection h with h
      rw [← h]
      simp
    · cases h
  | [], h => cases h
  | [x1], h => cases h

/-- json.loads table of single-character escapes: the decoded
character, or Option.none when the character after the backslash is not
one of the eight simple escapes. -/
def simpleEscape (e : Char) : Option Char :=
  if e = Char.ofNat 34 ∨ e = Char.ofNat 92 ∨ e = Char.ofNat 47 then some e
  else if e = Char.ofNat 98 then some (Char.ofNat 8)
  else if e = Char.ofNat 102 then some (Char.ofNat 12)
  else if e = Char.ofNat 110 then some (Char.ofNat 10)
  else if e = Char.ofNat 114 then some (Char.ofNat 13)
  else if e = Char.ofNat 116 then some (Char.ofNat 9)
  else Option.none

/-- json.loads handling of a \u escape, the input starting right after
the letter u: four hexadecimal digits, and when they form a high
surrogate a mandatory low-surrogate continuation to combine with.
json.loads itself keeps a lone surrogate as a lone surrogate character,
which a Lean Char cannot represent, so a lone surrogate is Option.none
here; serialized output of the exporter never contains lone surrogate
escapes, so the two models agree on every input this development
re-parses. -/
def parseUEscape (l : List Char) : Option (Char × List Char) :=
  (parseHex4 l).bind (fun pn =>
    if 55296 ≤ pn.1 ∧ pn.1 < 56320 then
      (expectBackslashU pn.2).bind (fun rest3 =>
        (parseHex4 rest3).bind (fun pm =>
          if 56320 ≤ pm.1 ∧ pm.1 < 57344 then
            some (Char.ofNat (65536 + (pn.1 - 55296) * 1024 + (pm.1 - 56320)), pm.2)
          else Option.none))
    else if 56320 ≤ pn.1 ∧ pn.1 < 57344 then Option.none
    else some (Char.ofNat pn.1, pn.2))

/-- On success parseUEscape consumes at least four characters. -/
theorem parseUEscape_length {l r : List Char} {ch : Char}
    (h : parseUEscape l = some (ch, r)) : r.length + 4 ≤ l.length := by
  rw [parseUEscape] at h
  cases hp : parseHex4 l with
  | none => rw [hp] at h; cases h
  | some pn =>
    rw [hp, Option.some_bind] at h
    have hlen := parseHex4_length hp
    split_ifs at h with hs1 hs2
    · cases he : expectBackslashU pn.2 with
      | none => rw [he] at h; cases h
      | some rest3 =>
        rw [he, Option.some_bind] at h
        have hlen2 := expectBackslashU_length he
        cases hq : parseHex4 rest3 with
        | none => rw [hq] at h; cases h
        | some pm =>
          rw [hq, Option.some_bind] at h
          have hlen3 := parseHex4_length hq
          split_ifs at h with hm
          injection h with h2
          rw [Prod.mk.injEq] at h2
          rw [← h2.2]
          omega
    · injection h with h2
      rw [Prod.mk.injEq] at h2
      rw [← h2.2]
      omega

/-- json.loads handling of one escape sequence, the input starting
right after the backslash: the decoded character and the remaining
input, or Option.none when the scan throws (invalid escape). -/
def parseEscape : List Char → Option (Char × List Char)
  | [] => Option.none
  | e :: rest =>
    match simpleEscape e with
    | some c => some (c, rest)
    | Option.none => if e = Char.ofNat 117 then parseUEscape rest else Option.none

/-- On success parseEscape consumes at least one character. -/
theorem parseEscape_length {l r : List Char} {ch : Char}
    (h : parseEscape l = some (ch, r)) : r.length < l.length := by
  cases l with
  | nil => cases h
  | cons e rest =>
    rw [parseEscape] at h
    split at h
    · cases h
      simp
    · split_ifs at h with hu
      have := parseUEscape_length h
      simp only [List.length_cons]
      omega

/-- json.loads scanning of the body of a string literal, after the
opening quote: returns the decoded characters and the input left after
the closing quote, or Option.none when the scan throws (unterminated
string, invalid escape, or a raw control character, which strict mode
rejects). -/
def parseStringBody (l : List Char) : Option (List Char × List Char) :=
  match l with
  | [] => Option.none
  | c :: rest =>
    if c = Char.ofNat 34 then some ([], rest)
    else if c = Char.ofNat 92 then
      match hp : parseEscape rest with
      | Option.none => Option.none
      | some (ch, rest2) =>
        (parseStringBody rest2).map (fun p => (ch :: p.1, p.2))
    else if c.toNat < 32 then Option.none
    else (parseStringBody rest).map (fun p => (c :: p.1, p.2))
termination_by l.length
decreasing_by
  · exact Nat.lt_succ_of_lt (parseEscape_length hp)
  · simp

/-- json.loads scanning of a whole string literal: the opening quote
followed by the body. -/
def parseStringLit (l : List Char) : Option (List Char × List Char) :=
  match l with
  | [] => Option.none
  | c :: rest => if c = Char.ofNat 34 then parseStringBody rest else Option.none

/-! ### Re-parsing facts: json.loads recovers every string json.dump emits -/

/-- A closing quote ends the string body. -/
theorem psb_close (l : List Char) : parseStringBody (Char.ofNat 34 :: l) = some ([], l) := by
  rw [parseStringBody]
  rw [if_pos rfl]

/-- A backslash hands over to the escape scanner. -/
theorem psb_backslash (rest : List Char) :
    parseStringBody (Char.ofNat 92 :: rest) =
      (parseEscape rest).bind
        (fun p => (parseStringBody p.2).map (fun q => (p.1 :: q.1, q.2))) := by
  rw [parseStringBody]
  cases hp : parseEscape rest with
  | none => rfl
  | some p =>
    obtain ⟨ch, r2⟩ := p
    rfl

/-- Any other non-control character is consumed literally. -/
theorem psb_plain {c : Char} (h1 : ¬ c = Char.ofNat 34) (h2 : ¬ c = Char.ofNat 92)
    (h3 : ¬ c.toNat < 32) (l : List Char) :
    parseStringBody (c :: l) = (parseStringBody l).map (fun p => (c :: p.1, p.2)) := by
  rw [parseStringBody]
  rw [if_neg h1, if_neg h2, if_neg h3]

/-- A Lean character is a Unicode scalar value: never a surrogate, and
below 0x110000. -/
theorem char_toNat_valid (c : Char) :
    c.toNat < 55296 ∨ (57343 < c.toNat ∧ c.toNat < 1114112) := by
  rcases c.valid with h | ⟨h1, h2⟩
  · left
    simpa [UInt32.lt_def, BitVec.lt_def, Char.toNat, UInt32.toNat] using h
  · right
    constructor
    · simpa [UInt32.lt_def, BitVec.lt_def, Char.toNat, UInt32.toNat] using h1
    · simpa [UInt32.lt_def, BitVec.lt_def, Char.toNat, UInt32.toNat] using h2

/-- hexVal inverts hexDigit on digit values. -/
theorem hexVal_hexDigit : ∀ d : Nat, d < 16 → hexVal (hexDigit d) = some d := by decide

/-- parseHex4 reads back the four hex digits json.dump emitted. -/
theorem parseHex4_digits (t : Nat) (l : List Char) :
    parseHex4 (hexDigit (t / 4096 % 16) :: hexDigit (t / 256 % 16) ::
      hexDigit (t / 16 % 16) :: hexDigit (t % 16) :: l) =
      some (4096 * (t / 4096 % 16) + 256 * (t / 256 % 16) + 16 * (t / 16 % 16) + t % 16, l) := by
  rw [parseHex4]
  rw [hexVal_hexDigit _ (Nat.mod_lt _ (by omega)),
      hexVal_hexDigit _ (Nat.mod_lt _ (by omega)),
      hexVal_hexDigit _ (Nat.mod_lt _ (by omega)),
      hexVal_hexDigit _ (Nat.mod_lt _ (by omega))]

/-- For values below 0x10000 the four digits encode the value itself. -/
theorem parseHex4_encode {t : Nat} (h : t < 65536) (l : List Char) :
    parseHex4 (hexDigit (t / 4096 % 16) :: hexDigit (t / 256 % 16) ::
      hexDigit (t / 16 % 16) :: hexDigit (t % 16) :: l) = some (t, l) := by
  rw [parseHex4_digits]
  have ht : 4096 * (t / 4096 % 16) + 256 * (t / 256 % 16) + 16 * (t / 16 % 16) + t % 16 = t := by
    omega
  rw [ht]

/-- The u introducer routes to the \u scanner. -/
theorem parseEscape_u (rest : List Char) :
    parseEscape (Char.ofNat 117 :: rest) = parseUEscape rest := by
  rw [parseEscape]
  rw [show simpleEscape (Char.ofNat 117) = Option.none from rfl]
  rfl

/-- A \u escape of a non-surrogate value below 0x10000 decodes to that
character. -/
theorem parseUEscape_bmp {t : Nat} (hlt : t < 65536)
    (hs1 : ¬ (55296 ≤ t ∧ t < 56320)) (hs2 : ¬ (56320 ≤ t ∧ t < 57344)) (l : List Char) :
    parseUEscape (hexDigit (t / 4096 % 16) :: hexDigit (t / 256 % 16) ::
      hexDigit (t / 16 % 16) :: hexDigit (t % 16) :: l) = some (Char.ofNat t, l) := by
  rw [parseUEscape, parseHex4_encode hlt, Option.some_bind]
  rw [if_neg hs1, if_neg hs2]

/-- The backslash-u introducer of the low surrogate is recognised. -/
theorem expectBackslashU_eq (r : List Char) :
    expectBackslashU (Char.ofNat 92 :: Char.ofNat 117 :: r) = some r := by
  rw [expectBackslashU]
  rw [if_pos ⟨rfl, rfl⟩]

/-- A surrogate-pair escape, as json.dump emits for a character above
0xffff, decodes back to that character. -/
theorem parseUEscape_pair {v : Nat} (hv : v < 1048576) (l : List Char) :
    parseUEscape
      (hexDigit ((55296 + v / 1024) / 4096 % 16) :: hexDigit ((55296 + v / 1024) / 256 % 16) ::
       hexDigit ((55296 + v / 1024) / 16 % 16) :: hexDigit ((55296 + v / 1024) % 16) ::
       Char.ofNat 92 :: Char.ofNat 117 ::
       hexDigit ((56320 + v % 1024) / 4096 % 16) :: hexDigit ((56320 + v % 1024) / 256 % 16) ::
       hexDigit ((56320 + v % 1024) / 16 % 16) :: hexDigit ((56320 + v % 1024) % 16) :: l) =
      some (Char.ofNat (65536 + v), l) := by
  rw [parseUEscape, parseHex4_encode (by omega : 55296 + v / 1024 < 65536), Option.some_bind]
  rw [if_pos (by omega : 55296 ≤ 55296 + v / 1024 ∧ 55296 + v / 1024 < 56320)]
  rw [expectBackslashU_eq, Option.some_bind]
  rw [parseHex4_encode (by omega : 56320 + v % 1024 < 65536), Option.some_bind]
  rw [if_pos (by omega : 56320 ≤ 56320 + v % 1024 ∧ 56320 + v % 1024 < 57344)]
  rw [show 65536 + (55296 + v / 1024 - 55296) * 1024 + (56320 + v % 1024 - 56320) = 65536 + v by
    omega]

/-- One escaped character parses back to exactly that character in
front of whatever follows. -/
theorem parse_escapeChar (c : Char) (l : List Char) :
    parseStringBody (escapeChar c ++ l) = (parseStringBody l).map (fun p => (c :: p.1, p.2)) := by
  by_cases h34 : c = Char.ofNat 34
  · subst h34
    rw [show escapeChar (Char.ofNat 34) = [Char.ofNat 92, Char.ofNat 34] from rfl,
        List.cons_append, List.singleton_append, psb_backslash,
        show parseEscape (Char.ofNat 34 :: l) = some (Char.ofNat 34, l) from rfl,
        Option.some_bind]
  by_cases h92 : c = Char.ofNat 92
  · subst h92
    rw [show escapeChar (Char.ofNat 92) = [Char.ofNat 92, Char.ofNat 92] from rfl,
        List.cons_append, List.singleton_append, psb_backslash,
        show parseEscape (Char.ofNat 92 :: l) = some (Char.ofNat 92, l) from rfl,
        Option.some_bind]
  by_cases h8 : c = Char.ofNat 8
  · subst h8
    rw [show escapeChar (Char.ofNat 8) = [Char.ofNat 92, Char.ofNat 98] from rfl,
        List.cons_append, List.singleton_append, psb_backslash,
        show parseEscape (Char.ofNat 98 :: l) = some (Char.ofNat 8, l) from rfl,
        Option.some_bind]
  by_cases h9 : c = Char.ofNat 9
  · subst h9
    rw [show escapeChar (Char.ofNat 9) = [Char.ofNat 92, Char.ofNat 116] from rfl,
        List.cons_append, List.singleton_append, psb_backslash,
        show parseEscape (Char.ofNat 116 :: l) = some (Char.ofNat 9, l) from rfl,
        Option.some_bind]
  by_cases h10 : c = Char.ofNat 10
  · subst h10
    rw [show escapeChar (Char.ofNat 10) = [Char.ofNat 92, Char.ofNat 110] from rfl,
        List.cons_append, List.singleton_append, psb_backslash,
        show parseEscape (Char.ofNat 110 :: l) = some (Char.ofNat 10, l) from rfl,
        Option.some_bind]
  by_cases h12 : c = Char.ofNat 12
  · subst h12
    rw [show escapeChar (Char.ofNat 12) = [Char.ofNat 92, Char.ofNat 102] from rfl,
        List.cons_append, List.singleton_append, psb_backslash,
        show parseEscape (Char.ofNat 102 :: l) = some (Char.ofNat 12, l) from rfl,
        Option.some_bind]
  by_cases h13 : c = Char.ofNat 13
  · subst h13
    rw [show escapeChar (Char.ofNat 13) = [Char.ofNat 92, Char.ofNat 114] from rfl,
        List.cons_append, List.singleton_append, psb_backslash,
        show parseEscape (Char.ofNat 114 :: l) = some (Char.ofNat 13, l) from rfl,
        Option.some_bind]
  by_cases hprint : 32 ≤ c.toNat ∧ c.toNat ≤ 126
  · have hec : escapeChar c = [c] := by
      rw [escapeChar, if_neg h34, if_neg h92, if_neg h8, if_neg h9, if_neg h10, if_neg h12,
          if_neg h13, if_pos hprint]
    rw [hec, List.singleton_append]
    exact psb_plain h34 h92 (by omega) l
  by_cases hbmp : c.toNat < 65536
  · have hec : escapeChar c =
        [Char.ofNat 92, Char.ofNat 117,
         hexDigit (c.toNat / 4096 % 16), hexDigit (c.toNat / 256 % 16),
         hexDigit (c.toNat / 16 % 16), hexDigit (c.toNat % 16)] := by
      rw [escapeChar, if_neg h34, if_neg h92, if_neg h8, if_neg h9, if_neg h10, if_neg h12,
          if_neg h13, if_neg hprint, if_pos hbmp]
    have hval := char_toNat_valid c
    rw [hec, List.cons_append, List.cons_append, List.cons_append, List.cons_append,
        List.cons_append, List.singleton_append, psb_backslash, parseEscape_u,
        parseUEscape_bmp hbmp (by omega) (by omega), Option.some_bind]
    rw [Char.ofNat_toNat]
  · have hval := char_toNat_valid c
    have hvbound : c.toNat - 65536 < 1048576 := by omega
    have hec : escapeChar c =
        [Char.ofNat 92, Char.ofNat 117,
         hexDigit ((55296 + (c.toNat - 65536) / 1024) / 4096 % 16),
         hexDigit ((55296 + (c.toNat - 65536) / 1024) / 256 % 16),
         hexDigit ((55296 + (c.toNat - 65536) / 1024) / 16 % 16),
         hexDigit ((55296 + (c.toNat - 65536) / 1024) % 16)] ++
        [Char.ofNat 92, Char.ofNat 117,
         hexDigit ((56320 + (c.toNat - 65536) % 1024) / 4096 % 16),
         hexDigit ((56320 + (c.toNat - 65536) % 1024) / 256 % 16),
         hexDigit ((56320 + (c.toNat - 65536) % 1024) / 16 % 16),
         hexDigit ((56320 + (c.toNat - 65536) % 1024) % 16)] := by
      rw [escapeChar, if_neg h34, if_neg h92, if_neg h8, if_neg h9, if_neg h10, if_neg h12,
          if_neg h13, if_neg hprint, if_neg hbmp]
    rw [hec]
    rw [List.append_assoc, List.cons_append, List.cons_append, List.cons_append,
        List.cons_append, List.cons_append, List.singleton_append, List.cons_append,
        List.cons_append, List.cons_append, List.cons_append, List.cons_append,
        List.singleton_append]
    rw [psb_backslash, parseEscape_u, parseUEscape_pair hvbound, Option.some_bind]
    rw [show 65536 + (c.toNat - 65536) = c.toNat by omega, Char.ofNat_toNat]

/-- An escaped character sequence followed by the closing quote parses
back to the original characters. -/
theorem parse_escape_list (s l : List Char) :
    parseStringBody (s.flatMap escapeChar ++ (Char.ofNat 34 :: l)) = some (s, l) := by
  induction s with
  | nil =>
    rw [List.flatMap_nil, List.nil_append]
    exact psb_close l
  | cons c cs ih =>
    rw [List.flatMap_cons, List.append_assoc, parse_escapeChar, ih]
    rfl

/-- json.loads recovers every string literal json.dump emits: the full
round trip through quoteJson and parseStringLit is the identity. -/
theorem parseStringLit_quoteJson (s : String) :
    parseStringLit (quoteJson s).data = some (s.data, []) := by
  rw [quoteJson]
  rw [show (String.mk (Char.ofNat 34 :: (s.data.flatMap escapeChar ++ [Char.ofNat 34]))).data =
      Char.ofNat 34 :: (s.data.flatMap escapeChar ++ [Char.ofNat 34]) from rfl]
  rw [parseStringLit]
  rw [if_pos rfl]
  exact parse_escape_list s.data []

/-! ### The whole run of the script -/

/-- The whole run of export_to_json.py on filesystem state s: connect
(creating an empty database file when absent), loop over the five
tables, and on success write the json.dump text to norms_data.json,
overwriting whatever was there; on any error the output file is not
touched.  Returns the final filesystem state and the outcome. -/
def runScript (s : Sys) : Sys × Except SqlError Unit :=
  let cs := connect s
  match exportDoc cs.1 with
  | Except.error e => (cs.2, Except.error e)
  | Except.ok doc => ({ cs.2 with outFile := some (jsonDump doc) }, Except.ok ())

/-! ### Lemmas about the table loop -/

/-- The query-trace component of the loop, taken by itself. -/
def loopQueries (f : DbFile) : List String → List String
  | [] => []
  | t :: ts =>
    match selectAll f t with
    | Except.error _ => [sqlFor t]
    | Except.ok _ => sqlFor t :: loopQueries f ts

/-- The document component of the loop, taken by itself. -/
def loopDocs (f : DbFile) :
    List String → Except SqlError (List (String × List (List (String × PyVal))))
  | [] => Except.ok []
  | t :: ts =>
    match selectAll f t with
    | Except.error e => Except.error e
    | Except.ok tab => (loopDocs f ts).map (fun doc => (t, tableEntry tab) :: doc)

/-- The loop is the pair of its two components. -/
theorem loopTables_eq (f : DbFile) (ts : List String) :
    loopTables f ts = (loopQueries f ts, loopDocs f ts) := by
  induction ts with
  | nil => rw [loopTables, loopQueries, loopDocs]
  | cons t ts ih =>
    rw [loopTables, loopQueries, loopDocs]
    cases hsel : selectAll f t with
    | error e => rfl
    | ok tab => rw [ih]

/-- On success the keys of the accumulated document are exactly the
queried table names, in order. -/
theorem loopDocs_ok_keys {f : DbFile} {ts : List String}
    {doc : List (String × List (List (String × PyVal)))}
    (h : loopDocs f ts = Except.ok doc) : doc.map Prod.fst = ts := by
  induction ts generalizing doc with
  | nil =>
    rw [loopDocs] at h
    injection h with h
    rw [← h]
    simp
  | cons t ts ih =>
    rw [loopDocs] at h
    cases hsel : selectAll f t with
    | error e => rw [hsel] at h; cases h
    | ok tab =>
      rw [hsel] at h
      cases hrest : loopDocs f ts with
      | error e => rw [hrest] at h; cases h
      | ok d =>
        rw [hrest] at h
        injection h with h
        rw [← h]
        simp only [List.map_cons]
        rw [ih hrest]

/-- On success every query in the fixed list was executed, in list
order. -/
theorem loopQueries_ok {f : DbFile} {ts : List String}
    {doc : List (String × List (List (String × PyVal)))}
    (h : loopDocs f ts = Except.ok doc) :
    loopQueries f ts = ts.map sqlFor := by
  induction ts generalizing doc with
  | nil => rw [loopQueries]; simp
  | cons t ts ih =>
    rw [loopDocs] at h
    cases hsel : selectAll f t with
    | error e => rw [hsel] at h; cases h
    | ok tab =>
      rw [hsel] at h
      rw [loopQueries, hsel]
      cases hrest : loopDocs f ts with
      | error e => rw [hrest] at h; cases h
      | ok d =>
        simp only [List.map_cons]
        rw [ih hrest]

/-- On success each document entry is the fetched table's rows turned
into dicts: data[table] = [dict(row) for row in rows]. -/
theorem loopDocs_ok_mem {f : DbFile} {ts : List String}
    {doc : List (String × List (List (String × PyVal)))}
    {t : String} {rs : List (List (String × PyVal))}
    (h : loopDocs f ts = Except.ok doc) (hmem : (t, rs) ∈ doc) :
    ∃ tab : Table, selectAll f t = Except.ok tab ∧ rs = tableEntry tab := by
  induction ts generalizing doc with
  | nil =>
    rw [loopDocs] at h
    injection h with h
    rw [← h] at hmem
    cases hmem
  | cons t0 ts ih =>
    rw [loopDocs] at h
    cases hsel : selectAll f t0 with
    | error e => rw [hsel] at h; cases h
    | ok tab =>
      rw [hsel] at h
      cases hrest : loopDocs f ts with
      | error e => rw [hrest] at h; cases h
      | ok d =>
        rw [hrest] at h
        injection h with h
        rw [← h] at hmem
        cases hmem with
        | head => exact ⟨tab, hsel, rfl⟩
        | tail _ hm => exact ih hrest hm

/-! ### Lemmas about connect and runScript -/

/-- connect never touches the output file. -/
theorem connect_outFile (s : Sys) : (connect s).2.outFile = s.outFile := by
  obtain ⟨d, o⟩ := s
  cases d <;> rfl

/-- connect on an existing database file is a no-op returning its
content. -/
theorem connect_some {s : Sys} {db : DbFile} (h : s.dbFile = some db) :
    connect s = (db, s) := by
  rw [connect, h]

/-- connect on an absent database file creates it empty. -/
theorem connect_none {s : Sys} (h : s.dbFile = Option.none) :
    connect s = (DbFile.validDb [], { s with dbFile := some (DbFile.validDb []) }) := by
  rw [connect, h]

/-- A successful run produced a document and wrote exactly its
json.dump text, leaving the rest of the state as connect left it. -/
theorem runScript_ok {s s2 : Sys} (h : runScript s = (s2, Except.ok ())) :
    ∃ doc, exportDoc (connect s).1 = Except.ok doc ∧
      s2 = { (connect s).2 with outFile := some (jsonDump doc) } := by
  rw [runScript] at h
  simp only at h
  cases hdoc : exportDoc (connect s).1 with
  | error e =>
    rw [hdoc] at h
    injection h with h1 h2
    cases h2
  | ok doc =>
    rw [hdoc] at h
    injection h with h1 h2
    exact ⟨doc, rfl, h1.symm⟩

/-- A failed run returns the state exactly as connect left it. -/
theorem runScript_error {s s2 : Sys} {e : SqlError}
    (h : runScript s = (s2, Except.error e)) : s2 = (connect s).2 := by
  rw [runScript] at h
  simp only at h
  cases hdoc : exportDoc (connect s).1 with
  | error e2 =>
    rw [hdoc] at h
    injection h with h1 h2
    exact h1.symm
  | ok doc =>
    rw [hdoc] at h
    injection h with h1 h2
    cases h2

/-! ### Sample databases for concrete witnesses -/

/-- A table with one integer key column and no rows. -/
def emptyTable : Table := { cols := ["id"], rows := [] }

/-- A three-row norms table over two columns. -/
def sampleNorms : Table :=
  { cols := ["id", "name"],
    rows := [[PyVal.int 1, PyVal.str "a"],
             [PyVal.int 2, PyVal.none],
             [PyVal.int 3, PyVal.bytes [97, 98]]] }

/-- A database holding all five expected tables, norms non-empty. -/
def sampleDb : DbFile :=
  DbFile.validDb
    [("norms", sampleNorms), ("norm_resources", emptyTable), ("rates", emptyTable),
     ("projects", emptyTable), ("boq_items", emptyTable)]

/-! ### Claims -/

/-- C1: For every run that completes successfully, the export document
contains exactly one entry per table name in the fixed five-element
list (norms, norm_resources, rates, projects, boq_items), each mapped
to a (possibly empty) array, and no other entries: the key list of the
document is exactly the fixed table list, and any entry's key belongs
to it. -/
theorem c1_export_document_keys {s s2 : Sys} (h : runScript s = (s2, Except.ok ())) :
    ∃ doc, exportDoc (connect s).1 = Except.ok doc ∧
      doc.map Prod.fst = tables ∧
      ∀ t rs, (t, rs) ∈ doc → t ∈ tables := by
  obtain ⟨doc, hdoc, _⟩ := runScript_ok h
  refine ⟨doc, hdoc, ?_, ?_⟩
  · rw [exportDoc, loopTables_eq] at hdoc
    exact loopDocs_ok_keys hdoc
  · intro t rs hmem
    rw [exportDoc, loopTables_eq] at hdoc
    have hk := loopDocs_ok_keys hdoc
    rw [← hk]
    exact List.mem_map.mpr ⟨(t, rs), hmem, rfl⟩

/-- C1 witness: the theorem applied to the sample database. -/
theorem c1_export_document_keys_witness :
    ∃ doc, exportDoc (connect (Sys.mk (some sampleDb) Option.none)).1 = Except.ok doc ∧
      doc.map Prod.fst = tables ∧
      ∀ t rs, (t, rs) ∈ doc → t ∈ tables :=
  @c1_export_document_keys (Sys.mk (some sampleDb) Option.none)
    ((runScript (Sys.mk (some sampleDb) Option.none)).1) rfl

/-- C2: For every table in the fixed list, the length of that table's
array in the export document equals the number of rows fetched from
that table at the time of the read. -/
theorem c2_row_count {f : DbFile} {doc : List (String × List (List (String × PyVal)))}
    {t : String} {rs : List (List (String × PyVal))}
    (h : exportDoc f = Except.ok doc) (hmem : (t, rs) ∈ doc) :
    ∃ tab : Table, selectAll f t = Except.ok tab ∧ rs.length = tab.rows.length := by
  rw [exportDoc, loopTables_eq] at h
  obtain ⟨tab, hsel, hrs⟩ := loopDocs_ok_mem h hmem
  refine ⟨tab, hsel, ?_⟩
  rw [hrs, tableEntry, List.length_map]

/-- C2 witness: in the sample database the norms entry has as many
dicts as the table has rows. -/
theorem c2_row_count_witness :
    ∃ tab : Table, selectAll sampleDb "norms" = Except.ok tab ∧
      (sampleNorms.rows.map (dictOfRow sampleNorms.cols)).length = tab.rows.length :=
  c2_row_count (t := "norms") rfl (by decide)

/-- C7: Tables are queried one at a time in the fixed list order
norms, norm_resources, rates, projects, boq_items, and the top-level
keys of the resulting JSON document appear in that same order. -/
theorem c7_query_and_key_order {f : DbFile}
    {doc : List (String × List (List (String × PyVal)))}
    (h : exportDoc f = Except.ok doc) :
    executedQueries f = tables.map sqlFor ∧ doc.map Prod.fst = tables := by
  rw [exportDoc, loopTables_eq] at h
  constructor
  · rw [executedQueries, loopTables_eq]
    exact loopQueries_ok h
  · exact loopDocs_ok_keys h

/-- C7 witness: the theorem applied to the sample database. -/
theorem c7_query_and_key_order_witness :
    executedQueries sampleDb = tables.map sqlFor ∧
    ((exportDoc sampleDb).toOption.getD []).map Prod.fst = tables := by
  have h := @c7_query_and_key_order sampleDb ((exportDoc sampleDb).toOption.getD []) (by rfl)
  exact h

/-- C4: If any failure occurs before or during the table-reading phase
(database file absent, or any of the five tables missing), the process
aborts and the output file norms_data.json is never written; a
pre-existing norms_data.json is left untouched. -/
theorem c4_no_output_on_error {s s2 : Sys} {e : SqlError}
    (h : runScript s = (s2, Except.error e)) : s2.outFile = s.outFile := by
  rw [runScript_error h]
  exact connect_outFile s

/-- C4 witness: a database missing the rates table aborts the run and
leaves the pre-existing output file untouched. -/
theorem c4_no_output_on_error_witness :
    (runScript (Sys.mk (some (DbFile.validDb [("norms", emptyTable), ("norm_resources", emptyTable)]))
        (some "previous content"))).1.outFile = some "previous content" :=
  @c4_no_output_on_error
    (Sys.mk (some (DbFile.validDb [("norms", emptyTable), ("norm_resources", emptyTable)]))
      (some "previous content"))
    ((runScript (Sys.mk (some (DbFile.validDb [("norms", emptyTable), ("norm_resources", emptyTable)]))
      (some "previous content"))).1)
    (SqlError.noSuchTable "rates") rfl

/-- What the run does on an absent database file: creates it empty,
dies at the first query, leaves the output file alone. -/
theorem runScript_absent {s : Sys} (h : s.dbFile = Option.none) :
    (runScript s).1.dbFile = some (DbFile.validDb []) ∧
    (runScript s).2 = Except.error (SqlError.noSuchTable "norms") ∧
    executedQueries (connect s).1 = [sqlFor "norms"] ∧
    (runScript s).1.outFile = s.outFile := by
  have hc := connect_none h
  have hrun : runScript s =
      ({ s with dbFile := some (DbFile.validDb []) },
       Except.error (SqlError.noSuchTable "norms")) := by
    rw [runScript, hc]
    rfl
  refine ⟨?_, ?_, ?_, ?_⟩
  · rw [hrun]
  · rw [hrun]
  · rw [hc]
    rfl
  · rw [hrun]

/-- C9: If the database file norms_decoded.db does not exist, opening
the connection nevertheless succeeds and creates a new empty database
file as a side effect; the run then fails only at the first table
query, so the filesystem is modified even though no output document is
produced. -/
theorem c9_connect_creates_file {s : Sys} (h : s.dbFile = Option.none) :
    (runScript s).1.dbFile = some (DbFile.validDb []) ∧
    (runScript s).2 = Except.error (SqlError.noSuchTable "norms") ∧
    executedQueries (connect s).1 = [sqlFor "norms"] ∧
    (runScript s).1.outFile = s.outFile :=
  runScript_absent h

/-- C9 witness: the theorem applied to the absent-file state. -/
theorem c9_connect_creates_file_witness :
    (runScript (Sys.mk Option.none Option.none)).1.dbFile = some (DbFile.validDb []) ∧
    (runScript (Sys.mk Option.none Option.none)).2 = Except.error (SqlError.noSuchTable "norms") ∧
    executedQueries (connect (Sys.mk Option.none Option.none)).1 = [sqlFor "norms"] ∧
    (runScript (Sys.mk Option.none Option.none)).1.outFile = Option.none :=
  c9_connect_creates_file rfl

/-- C3 counterexample: with the database file absent, opening the
connection does not fail: it returns a connection to a fresh empty
database (creating the file), a table query is then executed, and the
run dies of a missing-table error from the query phase, not of any
connection error. -/
theorem c3_counterexample :
    connect (Sys.mk Option.none Option.none) =
      (DbFile.validDb [], Sys.mk (some (DbFile.validDb [])) Option.none) ∧
    executedQueries (DbFile.validDb []) = [sqlFor "norms"] ∧
    (runScript (Sys.mk Option.none Option.none)).2 =
      Except.error (SqlError.noSuchTable "norms") :=
  ⟨rfl, rfl, rfl⟩

/-- C3 amended: if the database file does not exist or is not a valid
database, opening the connection succeeds anyway (creating an empty
database file in the absent case); the failure surfaces at the first
table query — no-such-table for a fresh empty database, not-a-database
for an invalid file — after that one query has been issued, the process
terminates, and the output file is left untouched. -/
theorem c3_connect_failure_amended {s : Sys}
    (h : s.dbFile = Option.none ∨ s.dbFile = some DbFile.notADatabase) :
    (∃ e, (runScript s).2 = Except.error e) ∧
    executedQueries (connect s).1 = [sqlFor "norms"] ∧
    (runScript s).1.outFile = s.outFile := by
  cases h with
  | inl h =>
    obtain ⟨h1, h2, h3, h4⟩ := runScript_absent h
    exact ⟨⟨SqlError.noSuchTable "norms", h2⟩, h3, h4⟩
  | inr h =>
    have hc := connect_some h
    have hrun : runScript s = (s, Except.error SqlError.notADatabase) := by
      rw [runScript, hc]
      rfl
    exact ⟨⟨SqlError.notADatabase, by rw [hrun]⟩, by rw [hc]; rfl, by rw [hrun]⟩

/-- C3 amended witness: the theorem applied to a state holding an
invalid database file. -/
theorem c3_connect_failure_amended_witness :
    (∃ e, (runScript (Sys.mk (some DbFile.notADatabase) (some "old"))).2 = Except.error e) ∧
    executedQueries (connect (Sys.mk (some DbFile.notADatabase) (some "old"))).1 = [sqlFor "norms"] ∧
    (runScript (Sys.mk (some DbFile.notADatabase) (some "old"))).1.outFile = some "old" :=
  c3_connect_failure_amended (Or.inr rfl)

/-- C6: Running the export twice against an unchanged database
produces byte-identical output files; the model's fetch order is the
stored row order, hence deterministic, which is the claim's proviso. -/
theorem c6_idempotent {s : Sys} {db : DbFile} (h : s.dbFile = some db) :
    (runScript (runScript s).1).1.outFile = (runScript s).1.outFile := by
  have hc := connect_some h
  cases hdoc : exportDoc db with
  | error e =>
    have h1 : (runScript s).1 = s := by
      rw [runScript, hc, hdoc]
    rw [h1, h1]
  | ok doc =>
    have h1 : (runScript s).1 = { s with outFile := some (jsonDump doc) } := by
      rw [runScript, hc, hdoc]
    have h2 : ({ s with outFile := some (jsonDump doc) } : Sys).dbFile = some db := h
    have hc2 := connect_some h2
    rw [h1, runScript, hc2, hdoc]

/-- C6 witness: the theorem applied to the sample database. -/
theorem c6_idempotent_witness :
    (runScript (runScript (Sys.mk (some sampleDb) Option.none)).1).1.outFile =
      (runScript (Sys.mk (some sampleDb) Option.none)).1.outFile :=
  c6_idempotent rfl

/-- C8: On success, the run writes the JSON serialization of the
export document (jsonDump renders with 2-space indentation, as
json.dump(data, f, indent=2, default=str) does) to the file
norms_data.json, overwriting any existing file at that path without
confirmation: the hypothesis allows any pre-existing output file
content. -/
theorem c8_writes_serialization {s s2 : Sys} (h : runScript s = (s2, Except.ok ())) :
    ∃ doc, exportDoc (connect s).1 = Except.ok doc ∧
      s2.outFile = some (jsonDump doc) := by
  obtain ⟨doc, hdoc, hs2⟩ := runScript_ok h
  exact ⟨doc, hdoc, by rw [hs2]⟩

/-- C8 witness: a run over the sample database with a pre-existing
output file overwrites it with the serialized document. -/
theorem c8_writes_serialization_witness :
    ∃ doc, exportDoc (connect (Sys.mk (some sampleDb) (some "OLD"))).1 = Except.ok doc ∧
      (runScript (Sys.mk (some sampleDb) (some "OLD"))).1.outFile = some (jsonDump doc) :=
  @c8_writes_serialization (Sys.mk (some sampleDb) (some "OLD"))
    ((runScript (Sys.mk (some sampleDb) (some "OLD"))).1) rfl

/-- Every byte contributes at least one character to the repr. -/
theorem escByte_length (q b : Nat) : 1 ≤ (escByte q b).length := by
  rw [escByte]
  split_ifs <;> simp

/-- The escaped body of a bytes repr is at least as long as the bytes. -/
theorem flatMap_escByte_ge (q : Nat) (bs : List Nat) :
    bs.length ≤ (bs.flatMap (escByte q)).length := by
  induction bs with
  | nil => simp
  | cons b bs ih =>
    rw [List.flatMap_cons, List.length_append, List.length_cons]
    have := escByte_length q b
    omega

/-- Round trip over the modelled (non-REAL) scalar domain: a None,
int or str value is natively JSON-representable and appears in the
output unchanged — null, the decimal numeral, or a string literal that
re-parses to the very same string — and a bytes blob appears as its
str() rendering, whose emitted string literal always re-parses
successfully to the coerced text.  REAL columns are outside the
modelled domain (see PyVal), so this lemma does not settle the spec's
round-trip property for float values. -/
theorem nonReal_scalar_round_trip :
    renderVal PyVal.none = "null" ∧
    (∀ n : Int, renderVal (PyVal.int n) = toString n) ∧
    (∀ s : String, renderVal (PyVal.str s) = quoteJson s ∧
      parseStringLit (quoteJson s).data = some (s.data, [])) ∧
    (∀ bs : List Nat, renderVal (PyVal.bytes bs) = quoteJson (bytesRepr bs) ∧
      parseStringLit (quoteJson (bytesRepr bs)).data = some ((bytesRepr bs).data, [])) := by
  refine ⟨rfl, fun n => rfl, fun s => ⟨rfl, parseStringLit_quoteJson s⟩,
    fun bs => ⟨rfl, parseStringLit_quoteJson (bytesRepr bs)⟩⟩

/-- C10: For every row value that is a binary blob (bytes), the
serialized output field is the Python str() rendering of the bytes
object — the repr form, a b prefix followed by a quoted body — and not
the decoded character content of the blob. -/
theorem c10_blob_is_repr (bs : List Nat) :
    renderVal (PyVal.bytes bs) = quoteJson (bytesRepr bs) ∧
    (bytesRepr bs).data.take 2 = [Char.ofNat 98, Char.ofNat (bytesQuote bs)] ∧
    bytesRepr bs ≠ decodedBytes bs := by
  refine ⟨rfl, rfl, ?_⟩
  intro heq
  have hdata := congrArg String.data heq
  rw [bytesRepr, decodedBytes] at hdata
  have hlen := congrArg List.length hdata
  simp only [List.length_cons, List.length_append, List.length_map] at hlen
  have := flatMap_escByte_ge (bytesQuote bs) bs
  omega

end ExportToJson
